import Mathlib

/-!
Shallow embedding of the ARM/ARM64 register-requirement builders of the
linear-scan register allocator (src/coreclr/jit/lsraarmarch.cpp).

Each builder is translated into a pure Lean function that returns the
count of consumed operand slots together with the ordered list of
requirement records ("events") it emits: operand uses, internal
(scratch) register reservations, definitions, kills, fixed-register
references and the two busy-marking side calls.  Register candidate
sets are finite sets of register numbers; the architectural named sets
(which live in target description headers outside this excerpt) are
modelled from the spec with the real ARM/ARM64 register assignments.
-/

/-- Register candidate set: a finite set of machine register numbers.
The empty set stands for RBM_NONE (no restriction). -/
abbrev RegSet := Finset Nat

/-- Target architecture selector: the file is compiled for either ARM64
(TARGET_ARM64) or 32-bit ARM (TARGET_ARM); TARGET_ARMARCH covers both. -/
structure Target where
  isArm64 : Bool
deriving DecidableEq

/-- Compiler-instance flags read by the builders. -/
structure Comp where
  needsGSSecurityCookie : Bool
  compIsAsync : Bool
  isNativeAotAbi : Bool
  isTargetUnix : Bool
  isBaselineSimdIsaSupported : Bool
  compAppleArm64Abi : Bool
deriving DecidableEq

/-- Modelled from the spec: the link register mask SRBM_LR from the target
description headers (x30 on ARM64, r14 on ARM). -/
def SRBM_LR (t : Target) : RegSet := if t.isArm64 then {30} else {14}

/-- Modelled from the spec: allRegs(TYP_INT), the full general-purpose
register file (x0..x30 on ARM64; r0..r12 and lr on ARM). -/
def allIntRegs (t : Target) : RegSet :=
  if t.isArm64 then Finset.range 31 else Finset.range 13 ∪ {14}

/-- Modelled from the spec: RBM_INT_CALLEE_TRASH, the caller-saved
(volatile) integer registers (x0..x17 and lr on ARM64; r0-r3, r12, lr on
ARM). -/
def RBM_INT_CALLEE_TRASH (t : Target) : RegSet :=
  if t.isArm64 then Finset.range 18 ∪ {30} else ({0, 1, 2, 3, 12, 14} : Finset Nat)

/-- Modelled from the spec: the two GS security-cookie temporary registers
REG_GSCOOKIE_TMP_0/1. -/
def gsCookieTmpRegs (t : Target) : RegSet :=
  if t.isArm64 then {9, 10} else {12, 14}

/-- Modelled from the spec: RBM_WRITE_BARRIER_DST_BYREF, the fixed
write-barrier destination register. -/
def RBM_WRITE_BARRIER_DST_BYREF (t : Target) : RegSet :=
  if t.isArm64 then {13} else {0}

/-- Modelled from the spec: RBM_WRITE_BARRIER_SRC_BYREF, the fixed
write-barrier source register. -/
def RBM_WRITE_BARRIER_SRC_BYREF (t : Target) : RegSet :=
  if t.isArm64 then {14} else {1}

/-- Modelled from the spec: the floating/vector register file (encoded at
numbers 32..63). -/
def RBM_ALLFLOAT : RegSet := (Finset.range 32).image (fun i => 32 + i)

/-- Modelled from the spec: internalFloatRegCandidates(), the candidate
set used for internal vector registers. -/
def internalFloatRegCandidates : RegSet := RBM_ALLFLOAT

/-- Modelled from the spec: availableIntRegs, the allocatable integer
registers of the LSRA instance. -/
def availableIntRegs (t : Target) : RegSet := allIntRegs t

/-- Modelled from the spec: the integer return register set RBM_INTRET. -/
def RBM_INTRET : RegSet := {0}

/-- Modelled from the spec: the long (register-pair) return set RBM_LNGRET. -/
def RBM_LNGRET : RegSet := {0, 1}

/-- Modelled from the spec: the floating return register set RBM_FLOATRET. -/
def RBM_FLOATRET : RegSet := {32}

/-- Modelled from the spec: RBM_PINVOKE_TCB, the fixed thread-control-block
register of the ARM PInvoke-frame helper. -/
def RBM_PINVOKE_TCB : RegSet := {4}

/-- Machine word size REGSIZE_BYTES (8 on ARM64, 4 on ARM). -/
def REGSIZE_BYTES (t : Target) : Nat := if t.isArm64 then 8 else 4

/-- Vector register width FP_REGSIZE_BYTES (16 on ARM64, 8 on ARM). -/
def FP_REGSIZE_BYTES (t : Target) : Nat := if t.isArm64 then 16 else 8

/-- Requirement record emitted by the builders, in program order.
`use opId mask`: BuildUse of an operand (opId distinguishes which
operand of the node; 0 is used for uses emitted through the shared
helper routines). `internalInt`/`internalFloat`: reservation of an
internal scratch register with the given candidate set.
`internalUses`: buildInternalRegisterUses. `defOne`/`defMany`:
BuildDef/BuildDefs. `defWithKills`/`defsWithKills`: definition(s)
combined with a kill set. `kills`: a kill set alone. `fixedRef`:
newRefPosition of RefTypeFixedReg. `asyncBusy`/`swiftBusy`: the two
busy-marking side calls of BuildCall. -/
inductive Event where
  | use : Nat → RegSet → Event
  | internalInt : RegSet → Event
  | internalFloat : RegSet → Event
  | internalUses : Event
  | defOne : RegSet → Event
  | defMany : Nat → RegSet → Event
  | defWithKills : RegSet → RegSet → Event
  | defsWithKills : Nat → RegSet → RegSet → Event
  | kills : RegSet → Event
  | fixedRef : Nat → Event
  | asyncBusy : Event
  | swiftBusy : Event
deriving DecidableEq

/-- Is this record an operand use? -/
def Event.isUse : Event → Bool
  | .use _ _ => true
  | _ => false

/-- Is this record an internal (scratch) integer register reservation? -/
def Event.isInternalInt : Event → Bool
  | .internalInt _ => true
  | _ => false

/-- Is this record an internal (scratch) vector register reservation? -/
def Event.isInternalFloat : Event → Bool
  | .internalFloat _ => true
  | _ => false

/-- Number of operand uses in a trace. -/
def countUses : List Event → Nat
  | [] => 0
  | e :: l => (if e.isUse then 1 else 0) + countUses l

/-- Number of internal integer register reservations in a trace. -/
def countInternalInt : List Event → Nat
  | [] => 0
  | e :: l => (if e.isInternalInt then 1 else 0) + countInternalInt l

/-- Number of internal vector register reservations in a trace. -/
def countInternalFloat : List Event → Nat
  | [] => 0
  | e :: l => (if e.isInternalFloat then 1 else 0) + countInternalFloat l

/-- IR value types relevant to these builders. -/
inductive VType where
  | tVOID | tINT | tLONG | tFLOAT | tDOUBLE | tSIMD12 | tSTRUCT | tREF
deriving DecidableEq

/-- varTypeUsesFloatArgReg: floating and SIMD types. -/
def varTypeUsesFloatArgReg : VType → Bool
  | .tFLOAT | .tDOUBLE | .tSIMD12 => true
  | _ => false

/-- varTypeIsFloating. -/
def varTypeIsFloating : VType → Bool
  | .tFLOAT | .tDOUBLE => true
  | _ => false

/-- isPow2 from the JIT utility header: positive with a single set bit. -/
def isPow2 (n : Nat) : Bool := n != 0 && (n &&& (n - 1)) == 0

/-- Modelled from the spec: emitter::emitIns_valid_imm_for_ldst_offset
(the emitter lives outside this excerpt) — an offset is encodable in a
load/store instruction either as a signed 9-bit byte offset or as an
unsigned scaled 12-bit offset that is a multiple of the access size. -/
def emitIns_valid_imm_for_ldst_offset (imm : Int) (size : Nat) : Bool :=
  (decide (-256 ≤ imm) && decide (imm ≤ 255)) ||
  (decide (0 ≤ imm) && decide (imm % (size : Int) = 0) && decide (imm / (size : Int) ≤ 4095))

/-- Operator of an indirection node reaching BuildIndir. -/
inductive IndirOp where
  | gtIND | gtSTOREIND | gtNULLCHECK
deriving DecidableEq

/-- Shape of a GenTreeIndir node as read by BuildIndir. -/
structure IndirNode where
  op : IndirOp
  nodeType : VType
  /-- GTF_IND_UNALIGNED flag. -/
  unaligned : Bool
  /-- Data()->TypeGet() for a GT_STOREIND. -/
  dataType : VType
  /-- addr->isContained(). -/
  addrContained : Bool
  /-- addr->OperIs(GT_LEA). -/
  addrIsLea : Bool
  /-- lea->Index() != nullptr. -/
  leaHasIndex : Bool
  /-- lea->Offset(). -/
  leaOffset : Int
  /-- emitTypeSize(indirTree). -/
  accessSize : Nat
  /-- Modelled from the spec: the number of non-contained address
  sub-expression uses emitted by BuildIndirUses (defined outside this
  excerpt); its contract returns exactly the number of uses it builds. -/
  indirUsesCount : Nat
deriving DecidableEq

/-- The value type examined by the TARGET_ARM unaligned-access rule:
the stored data's type for GT_STOREIND, the node type for GT_IND,
TYP_UNDEF (here tVOID) otherwise. -/
def unalignedCheckType (nd : IndirNode) : VType :=
  match nd.op with
  | .gtSTOREIND => nd.dataType
  | .gtIND => nd.nodeType
  | .gtNULLCHECK => .tVOID

/-- The internal integer registers reserved by the contained
addressing-mode rule of BuildIndir (lines 74-95): one when both an index
and a nonzero offset are present, else one when the offset is not
encodable in the load/store immediate field, else none. -/
def indirAddrModeInternalCount (nd : IndirNode) : Nat :=
  if nd.addrContained then
    if nd.addrIsLea then
      if nd.leaHasIndex && nd.leaOffset != 0 then 1
      else if !(emitIns_valid_imm_for_ldst_offset nd.leaOffset nd.accessSize) then 1
      else 0
    else 0
  else 0

/-- LinearScan::BuildIndir: returns the consumed source count and the
emitted requirement records. -/
def BuildIndir (t : Target) (nd : IndirNode) : Nat × List Event :=
  let armUnalignedEvts : List Event :=
    if !t.isArm64 && nd.unaligned then
      match unalignedCheckType nd with
      | .tFLOAT => [Event.internalInt ∅]
      | .tDOUBLE => [Event.internalInt ∅, Event.internalInt ∅]
      | _ => []
    else []
  let addrEvts : List Event :=
    List.replicate (indirAddrModeInternalCount nd) (Event.internalInt ∅)
  let simdEvts : List Event :=
    if nd.nodeType = VType.tSIMD12 then [Event.internalInt ∅] else []
  let srcCount := nd.indirUsesCount
  let uses := List.replicate srcCount (Event.use 0 ∅)
  let defEvts : List Event :=
    if nd.op = IndirOp.gtSTOREIND ∨ nd.op = IndirOp.gtNULLCHECK then []
    else [Event.defOne ∅]
  (srcCount, armUnalignedEvts ++ addrEvts ++ simdEvts ++ uses ++ [Event.internalUses] ++ defEvts)

/-- Shape of a GenTreeCall node as read by BuildCall. -/
structure CallNode where
  /-- call->TypeGet(). -/
  retType : VType
  /-- call->HasMultiRegRetVal(). -/
  hasMultiRegRetVal : Bool
  /-- retTypeDesc->GetReturnRegCount(). -/
  retRegCount : Nat
  /-- retTypeDesc->GetABIReturnRegs(call->GetUnmanagedCallConv()). -/
  multiRetMask : RegSet
  /-- call->gtCallType == CT_INDIRECT. -/
  isIndirect : Bool
  /-- call->gtControlExpr != nullptr (direct calls; an indirect call
  instead uses gtCallAddr, asserted non-null). -/
  hasControlExpr : Bool
  /-- call->IsFastTailCall(). -/
  isFastTailCall : Bool
  /-- call->IsR2ROrVirtualStubRelativeIndir(). -/
  isR2ROrVirtualStubRelativeIndir : Bool
  /-- call->NeedsNullCheck(). -/
  needsNullCheck : Bool
  /-- call->IsHelperCall(compiler, CORINFO_HELP_INIT_PINVOKE_FRAME). -/
  isPInvokeFrameHelper : Bool
  /-- call->gtArgs.CountArgs(). -/
  argCount : Nat
  /-- ctrlExpr->IsTlsIconHandle(). -/
  ctrlIsTlsIconHandle : Bool
  /-- call->IsAsync(). -/
  isAsync : Bool
  /-- call->HasSwiftErrorHandling(). -/
  hasSwiftErrorHandling : Bool
  /-- Modelled from the spec: the number of argument operand uses
  emitted by BuildCallArgUses (defined outside this excerpt); its
  contract returns exactly the number of uses it builds. -/
  argUsesCount : Nat
  /-- getKillSetForCall(call), an oracle for the calling convention's
  clobber set. -/
  killMask : RegSet
deriving DecidableEq

/-- The merged control expression of a call: gtCallAddr for an indirect
call, gtControlExpr otherwise (non-null iff this is true). -/
def callCtrlPresent (nd : CallNode) : Bool :=
  nd.isIndirect || nd.hasControlExpr

/-- The NativeAOT linux/arm64 thread-local-storage special case guard of
BuildCall (line 256). -/
def callTlsCond (t : Target) (c : Comp) (nd : CallNode) : Bool :=
  t.isArm64 && c.isNativeAotAbi && c.isTargetUnix && nd.argCount == 0 && nd.ctrlIsTlsIconHandle

/-- The fast-tail-call candidate restriction for the call target
(lines 174-179): volatile integer registers minus the link register,
minus the GS-cookie temporaries when the cookie scheme is active. -/
def fastTailCtrlCandidates (t : Target) (c : Comp) : RegSet :=
  let m := (allIntRegs t ∩ RBM_INT_CALLEE_TRASH t) \ SRBM_LR t
  if c.needsGSSecurityCookie then m \ gsCookieTmpRegs t else m

/-- The singleDstCandidates computation of BuildCall (lines 226-248):
the ARM PInvoke-frame helper returns in the fixed TCB register;
otherwise the single-register return candidate set is chosen by the
return type (float, long pair, or integer return). -/
def callSingleDstCandidates (t : Target) (nd : CallNode) : RegSet :=
  if !t.isArm64 ∧ nd.isPInvokeFrameHelper then RBM_PINVOKE_TCB
  else if varTypeUsesFloatArgReg nd.retType then RBM_FLOATRET
  else if nd.retType = VType.tLONG then RBM_LNGRET
  else RBM_INTRET

/-- Result of BuildCall: consumed source count, destination count, the
final candidate set of the control expression use, the emitted trace,
and the cross-call placement state left behind. -/
structure CallRes where
  srcCount : Nat
  dstCount : Nat
  ctrlExprCandidates : RegSet
  trace : List Event
  placedArgRegs : RegSet
  numPlacedArgLocals : Nat
deriving DecidableEq

/-- LinearScan::BuildCall. `placedIn`/`numPlacedIn` are the incoming
cross-call placement state fields of the LinearScan instance; the
builder unconditionally clears them at its end (lines 311-312). -/
def BuildCall (t : Target) (c : Comp) (nd : CallNode) (placedIn : RegSet)
    (numPlacedIn : Nat) : CallRes :=
  let hasMulti := if nd.retType ≠ VType.tVOID then nd.hasMultiRegRetVal else false
  let dstCount : Nat :=
    if nd.retType ≠ VType.tVOID then
      (if nd.hasMultiRegRetVal then nd.retRegCount else 1)
    else 0
  let ctrlPresent := callCtrlPresent nd
  let ctrlCand0 : RegSet :=
    if ctrlPresent ∧ nd.isFastTailCall then fastTailCtrlCandidates t c else ∅
  let preEvts : List Event :=
    if ctrlPresent then []
    else if nd.isR2ROrVirtualStubRelativeIndir then
      (if nd.isFastTailCall then
        [Event.internalInt (allIntRegs t ∩ RBM_INT_CALLEE_TRASH t)]
      else if !t.isArm64 then [Event.internalInt ∅] else [])
    else (if !t.isArm64 then [Event.internalInt ∅] else [])
  let nullChkEvts : List Event :=
    if !t.isArm64 ∧ nd.needsNullCheck then
      [Event.internalInt (if nd.isFastTailCall then SRBM_LR t else ∅)]
    else []
  let singleDst : RegSet := callSingleDstCandidates t nd
  let argUseEvts : List Event := List.replicate nd.argUsesCount (Event.use 0 ∅)
  let tlsCond := callTlsCond t c nd
  let tlsEvts : List Event :=
    if ctrlPresent ∧ tlsCond then [Event.fixedRef 0, Event.fixedRef 1] else []
  let ctrlCand : RegSet := if ctrlPresent ∧ tlsCond then ({2} : RegSet) else ctrlCand0
  let ctrlUseEvts : List Event := if ctrlPresent then [Event.use 1 ctrlCand] else []
  let asyncEvts : List Event :=
    if nd.isAsync ∧ c.compIsAsync ∧ ¬nd.isFastTailCall then [Event.asyncBusy] else []
  let defKillEvts : List Event :=
    if dstCount > 0 then
      (if hasMulti then [Event.defsWithKills dstCount nd.multiRetMask nd.killMask]
       else [Event.defWithKills singleDst nd.killMask])
    else [Event.kills nd.killMask]
  let swiftEvts : List Event := if nd.hasSwiftErrorHandling then [Event.swiftBusy] else []
  { srcCount := nd.argUsesCount + (if ctrlPresent then 1 else 0)
    dstCount := dstCount
    ctrlExprCandidates := ctrlCand
    trace := preEvts ++ nullChkEvts ++ argUseEvts ++ tlsEvts ++ ctrlUseEvts ++
             [Event.internalUses] ++ asyncEvts ++ defKillEvts ++ swiftEvts
    placedArgRegs := ∅
    numPlacedArgLocals := 0 }

/-- Shape of a GT_PUTARG_STK node as read by BuildPutArgStk. -/
structure StkNode where
  /-- src->TypeGet() (the Data operand's type). -/
  srcType : VType
  /-- src->OperIs(GT_FIELD_LIST). -/
  srcIsFieldList : Bool
  /-- the types of the field-list entries, in order. -/
  fieldTypes : List VType
  /-- src->OperIs(GT_BLK). -/
  srcIsBlk : Bool
  /-- Modelled from the spec: the number of uses emitted by
  BuildOperandUses(src->AsBlk()->Addr()) (defined outside this excerpt). -/
  blkAddrUses : Nat
  /-- Modelled from the spec: the number of uses emitted by
  BuildOperandUses(src) for a non-struct source. -/
  operandUses : Nat
  /-- argNode->GetStackByteSize(). -/
  stackByteSize : Nat
deriving DecidableEq

/-- The field-list loop of BuildPutArgStk: one use per field, plus an
internal integer register for each TYP_SIMD12 field. -/
def stkFieldEvents : List VType → List Event
  | [] => []
  | ty :: rest =>
      Event.use 0 ∅ ::
        ((if ty = VType.tSIMD12 then [Event.internalInt ∅] else []) ++ stkFieldEvents rest)

/-- LinearScan::BuildPutArgStk. -/
def BuildPutArgStk (t : Target) (c : Comp) (nd : StkNode) : Nat × List Event :=
  if nd.srcType = VType.tSTRUCT then
    if nd.srcIsFieldList then
      (nd.fieldTypes.length, stkFieldEvents nd.fieldTypes ++ [Event.internalUses])
    else
      let ints : List Event :=
        Event.internalInt ∅ :: (if t.isArm64 then [Event.internalInt ∅] else [])
      if nd.srcIsBlk then
        (nd.blkAddrUses,
         ints ++ List.replicate nd.blkAddrUses (Event.use 0 ∅) ++ [Event.internalUses])
      else (0, ints ++ [Event.internalUses])
  else
    let extra : List Event :=
      if c.compAppleArm64Abi ∧ nd.stackByteSize = 12 then [Event.internalInt ∅] else []
    (nd.operandUses,
     List.replicate nd.operandUses (Event.use 0 ∅) ++ extra ++ [Event.internalUses])

/-- Shape of a GT_PUTARG_SPLIT node as read by BuildPutArgSplit. -/
structure SplitNode where
  /-- argNode->gtNumRegs. -/
  numRegs : Nat
  /-- argNode->GetRegNum(), the first destination register. -/
  baseReg : Nat
  /-- src->OperIs(GT_FIELD_LIST). -/
  srcIsFieldList : Bool
  /-- per field-list entry, the number of registers it produces
  (GetRegCount() of an ARM multi-reg node, otherwise 1). -/
  fieldRegCounts : List Nat
  /-- src->OperIs(GT_BLK). -/
  srcIsBlk : Bool
  /-- Modelled from the spec: the number of uses emitted by
  BuildOperandUses(src->AsBlk()->Addr()). -/
  blkAddrUses : Nat
deriving DecidableEq

/-- argMask: the consecutive destination registers of a split argument. -/
def argMaskOf (baseReg numRegs : Nat) : RegSet :=
  (Finset.range numRegs).image (fun i => baseReg + i)

/-- Inner loop of the BuildPutArgSplit field-list walk: emits one use per
produced sub-register slot of a field. `cnt` is sourceRegCount, the
global slot ordinal; a slot still within the destination register count
is bound to that destination register and recorded in placedArgRegs. -/
def splitInner (baseReg numRegs : Nat) : Nat → Nat → RegSet → List Event × Nat × RegSet
  | 0, cnt, placed => ([], cnt, placed)
  | rc + 1, cnt, placed =>
      let step : List Event × Nat × RegSet :=
        if cnt < numRegs then
          ([Event.use 0 {baseReg + cnt}], cnt + 1, insert (baseReg + cnt) placed)
        else ([Event.use 0 (∅ : RegSet)], cnt + 1, placed)
      let rest := splitInner baseReg numRegs rc step.2.1 step.2.2
      (step.1 ++ rest.1, rest.2.1, rest.2.2)

/-- Outer loop of the BuildPutArgSplit field-list walk, over the fields. -/
def splitOuter (baseReg numRegs : Nat) : List Nat → Nat → RegSet → List Event × Nat × RegSet
  | [], cnt, placed => ([], cnt, placed)
  | rc :: rest, cnt, placed =>
      let a := splitInner baseReg numRegs rc cnt placed
      let b := splitOuter baseReg numRegs rest a.2.1 a.2.2
      (a.1 ++ b.1, b.2.1, b.2.2)

/-- Result of BuildPutArgSplit: consumed source count, emitted trace, and
the cross-call placement state after the node. -/
structure SplitRes where
  srcCount : Nat
  trace : List Event
  placedArgRegs : RegSet
deriving DecidableEq

/-- LinearScan::BuildPutArgSplit. -/
def BuildPutArgSplit (t : Target) (nd : SplitNode) (placedIn : RegSet) : SplitRes :=
  let argMask := argMaskOf nd.baseReg nd.numRegs
  if nd.srcIsFieldList then
    let res := splitOuter nd.baseReg nd.numRegs nd.fieldRegCounts 0 placedIn
    ⟨res.2.1, res.1 ++ [Event.internalUses, Event.defMany nd.numRegs argMask], res.2.2⟩
  else if nd.srcIsBlk then
    let ints : List Event :=
      if nd.numRegs = 1 then [Event.internalInt (allIntRegs t \ argMask)] else []
    ⟨nd.blkAddrUses,
     ints ++ List.replicate nd.blkAddrUses (Event.use 0 ∅) ++
       [Event.internalUses, Event.defMany nd.numRegs argMask],
     placedIn⟩
  else
    ⟨0, [Event.internalUses, Event.defMany nd.numRegs argMask], placedIn⟩

/-- Block-operation strategy tag gtBlkOpKind. -/
inductive BlkOpKind where
  | unroll | loop | cpObjUnroll | unrollMemmove
deriving DecidableEq

/-- Shape of a GenTreeBlk store node as read by BuildBlockStore.
For an init operation the fill value (after unwrapping a contained
GT_INIT_VAL) plays the role of srcAddrOrFill; for a copy whose source is
a contained GT_IND, the source address does. The `saof*` fields describe
that srcAddrOrFill value. -/
structure BlkNode where
  /-- blkNode->OperIsInitBlkOp(). -/
  isInitBlkOp : Bool
  /-- blkNode->gtBlkOpKind. -/
  kind : BlkOpKind
  /-- blkNode->Size(). -/
  size : Nat
  /-- dstAddr->isContained(). -/
  dstContained : Bool
  /-- dstAddr->OperIsAddrMode(). -/
  dstIsAddrMode : Bool
  /-- Modelled from the spec: uses emitted by
  BuildAddrUses(dstAddr->AsAddrMode()->Base()). -/
  dstAddrBaseUses : Nat
  /-- dstAddr->OperIs(GT_LCL_ADDR). -/
  dstIsLclAddr : Bool
  /-- copy path: src->OperIs(GT_IND). -/
  srcIsInd : Bool
  /-- copy path: src->OperIs(GT_LCL_VAR, GT_LCL_FLD). -/
  srcIsLclVarOrFld : Bool
  /-- srcAddrOrFill->isContained(). -/
  saofContained : Bool
  /-- srcAddrOrFill->OperIsAddrMode(). -/
  saofIsAddrMode : Bool
  /-- Modelled from the spec: uses emitted by
  BuildAddrUses(srcAddrOrFill->AsAddrMode()->Base()). -/
  saofBaseUses : Nat
  /-- srcAddrOrFill->OperIs(GT_LCL_ADDR). -/
  saofIsLclAddr : Bool
  /-- getKillSetForBlockStore(blkNode), an oracle. -/
  killMask : RegSet
deriving DecidableEq

/-- Is srcAddrOrFill non-null? For an init operation the fill value is
always present; for a copy it is the source address of a GT_IND source. -/
def blkSaofPresent (nd : BlkNode) : Bool :=
  nd.isInitBlkOp || nd.srcIsInd

/-- isSrcAddrLocal of the unrolled-copy branch (line 633). -/
def blkIsSrcAddrLocal (nd : BlkNode) : Bool :=
  nd.srcIsLclVarOrFld || (blkSaofPresent nd && nd.saofIsLclAddr)

/-- isDstAddrLocal of the unrolled-copy branch (line 635). -/
def blkIsDstAddrLocal (nd : BlkNode) : Bool :=
  nd.dstIsLclAddr

/-- srcAddrMayNeedReg of the unrolled-copy branch (line 650). -/
def blkSrcAddrMayNeedReg (nd : BlkNode) : Bool :=
  blkIsSrcAddrLocal nd || (blkSaofPresent nd && nd.saofContained)

/-- dstAddrMayNeedReg of the unrolled-copy branch (line 652). -/
def blkDstAddrMayNeedReg (nd : BlkNode) : Bool :=
  blkIsDstAddrLocal nd || nd.dstContained

/-- The strategy-specific reservations of BuildBlockStore: the emitted
events together with the destination-address and source-address
candidate masks. `none` models an unreached() strategy/shape combination
(a fatal internal error). -/
def blkStrategyEvents (t : Target) (c : Comp) (nd : BlkNode) :
    Option (List Event × RegSet × RegSet) :=
  if nd.isInitBlkOp then
    match nd.kind with
    | .unroll =>
        some ((if t.isArm64 then
                 (if nd.dstContained then [Event.internalInt ∅] else []) ++
                 (if nd.size > FP_REGSIZE_BYTES t then
                    [Event.internalFloat internalFloatRegCandidates] else [])
               else []), ∅, ∅)
    | .loop => some ([Event.internalInt (availableIntRegs t)], ∅, ∅)
    | _ => none
  else
    match nd.kind with
    | .cpObjUnroll =>
        let internalIntCandidates : RegSet :=
          allIntRegs t \ (RBM_WRITE_BARRIER_DST_BYREF t ∪ RBM_WRITE_BARRIER_SRC_BYREF t)
        some (Event.internalInt internalIntCandidates ::
                ((if nd.size ≥ 2 * REGSIZE_BYTES t then
                    [Event.internalInt internalIntCandidates] else []) ++
                 (if nd.size ≥ 4 * REGSIZE_BYTES t ∧ c.isBaselineSimdIsaSupported then
                    [Event.internalFloat internalFloatRegCandidates,
                     Event.internalFloat internalFloatRegCandidates] else [])),
              RBM_WRITE_BARRIER_DST_BYREF t,
              if blkSaofPresent nd then RBM_WRITE_BARRIER_SRC_BYREF t else ∅)
    | .unroll =>
        some (Event.internalInt ∅ ::
                (if t.isArm64 then
                   (if nd.size ≥ 2 * REGSIZE_BYTES t then [Event.internalInt ∅] else []) ++
                   (if nd.size ≥ 2 * FP_REGSIZE_BYTES t then
                      [Event.internalFloat internalFloatRegCandidates,
                       Event.internalFloat internalFloatRegCandidates] else []) ++
                   (if blkSrcAddrMayNeedReg nd ∧ blkDstAddrMayNeedReg nd then
                      [Event.internalInt ∅] else [])
                 else []), ∅, ∅)
    | .unrollMemmove =>
        if t.isArm64 then
          let simdSize := FP_REGSIZE_BYTES t
          some ((if nd.size ≥ simdSize then
                   List.replicate
                     (nd.size / simdSize + (if nd.size % simdSize != 0 then 1 else 0))
                     (Event.internalFloat internalFloatRegCandidates)
                 else if isPow2 nd.size then [Event.internalInt (availableIntRegs t)]
                 else [Event.internalInt (availableIntRegs t),
                       Event.internalInt (availableIntRegs t)]), ∅, ∅)
        else none
    | .loop => none

/-- LinearScan::BuildBlockStore: strategy reservations, then the
destination and source address/value uses, internal uses, and the block
kill set. Returns the consumed use count and the trace, or `none` for an
unreached() shape. -/
def BuildBlockStore (t : Target) (c : Comp) (nd : BlkNode) : Option (Nat × List Event) :=
  match blkStrategyEvents t c nd with
  | none => none
  | some (sev, dstAddrRegMask, srcRegMask) =>
      let dstCnt : Nat :=
        if !nd.dstContained then 1
        else if nd.dstIsAddrMode then nd.dstAddrBaseUses else 0
      let dstEvts : List Event :=
        if !nd.dstContained then [Event.use 1 dstAddrRegMask]
        else if nd.dstIsAddrMode then
          List.replicate nd.dstAddrBaseUses (Event.use 0 ∅)
        else []
      let srcCnt : Nat :=
        if blkSaofPresent nd then
          (if !nd.saofContained then 1
           else if nd.saofIsAddrMode then nd.saofBaseUses else 0)
        else 0
      let srcEvts : List Event :=
        if blkSaofPresent nd then
          (if !nd.saofContained then [Event.use 2 srcRegMask]
           else if nd.saofIsAddrMode then
             List.replicate nd.saofBaseUses (Event.use 0 ∅)
           else [])
        else []
      some (dstCnt + srcCnt,
            sev ++ dstEvts ++ srcEvts ++ [Event.internalUses, Event.kills nd.killMask])

/-- The consumed use count of BuildBlockStore (0 for an unreached shape). -/
def blkUseCount (t : Target) (c : Comp) (nd : BlkNode) : Nat :=
  ((BuildBlockStore t c nd).map Prod.fst).getD 0

/-- The emitted trace of BuildBlockStore ([] for an unreached shape). -/
def blkTrace (t : Target) (c : Comp) (nd : BlkNode) : List Event :=
  ((BuildBlockStore t c nd).map Prod.snd).getD []

/-- Shape of a GT_CAST node as read by BuildCast. -/
structure CastNode where
  /-- genActualType(src->TypeGet()). -/
  srcType : VType
  /-- cast->gtCastType. -/
  castType : VType
  /-- Modelled from the spec: the number of uses emitted by
  BuildCastUses(cast, RBM_NONE) (defined outside this excerpt). -/
  castUses : Nat
deriving DecidableEq

/-- LinearScan::BuildCast. -/
def BuildCast (t : Target) (nd : CastNode) : Nat × List Event :=
  let armEvts : List Event :=
    if !t.isArm64 ∧ varTypeIsFloating nd.srcType ∧ ¬varTypeIsFloating nd.castType then
      [Event.internalFloat RBM_ALLFLOAT]
    else []
  (nd.castUses,
   armEvts ++ List.replicate nd.castUses (Event.use 0 ∅) ++
     [Event.internalUses, Event.defOne ∅])

/-- Shape of a GT_SELECT/GT_SELECTCC node as read by BuildSelect. -/
structure SelectNode where
  /-- select->OperIs(GT_SELECT) (a GT_SELECTCC has no condition operand). -/
  isSelect : Bool
  /-- Modelled from the spec: uses emitted by BuildOperandUses(gtCond). -/
  condUses : Nat
  /-- Modelled from the spec: uses emitted by BuildOperandUses(gtOp1). -/
  op1Uses : Nat
  /-- Modelled from the spec: uses emitted by BuildOperandUses(gtOp2). -/
  op2Uses : Nat
deriving DecidableEq

/-- LinearScan::BuildSelect. -/
def BuildSelect (nd : SelectNode) : Nat × List Event :=
  let condCount := if nd.isSelect then nd.condUses else 0
  (condCount + nd.op1Uses + nd.op2Uses,
   (if nd.isSelect then List.replicate nd.condUses (Event.use 0 ∅) else []) ++
     List.replicate nd.op1Uses (Event.use 0 ∅) ++
     List.replicate nd.op2Uses (Event.use 0 ∅) ++ [Event.defOne ∅])

/-- The candidate mask bound to the sub-register slot of ordinal `k` in
the BuildPutArgSplit field-list walk: the single destination register
while `k` is within the destination register count, unrestricted beyond. -/
def slotMask (b n k : Nat) : RegSet := if k < n then {b + k} else ∅
/-- Concrete ARM64 target used in witness instantiations. -/
def tgt64 : Target := ⟨true⟩

/-- Concrete ARM target used in witness instantiations. -/
def tgt32 : Target := ⟨false⟩

/-- Concrete compiler flags with every feature off. -/
def comp0 : Comp := ⟨false, false, false, false, false, false⟩

/-- Concrete compiler flags with the GS security cookie scheme active. -/
def compGS : Comp := ⟨true, false, false, false, false, false⟩

/-- Concrete indirection node: a load through a contained LEA with both
an index and a nonzero offset. -/
def indirW : IndirNode := ⟨.gtIND, .tINT, false, .tINT, true, true, true, 4, 8, 1⟩

/-- Concrete block store node: an overlap-safe move of 16 bytes. -/
def blkW4 : BlkNode :=
  ⟨false, .unrollMemmove, 16, false, false, 0, false, true, false, false, false, 0, false, ∅⟩

/-- Concrete block store node: a write-barrier object copy of 16 bytes
from a non-local source. -/
def blkW5 : BlkNode :=
  ⟨false, .cpObjUnroll, 16, false, false, 0, false, true, false, false, false, 0, false, ∅⟩

/-- Concrete block store node: a general unrolled copy of 32 bytes whose
source and destination addresses are both non-local, non-contained. -/
def blkW9 : BlkNode :=
  ⟨false, .unroll, 32, false, false, 0, false, true, false, false, false, 0, false, ∅⟩

/-- Concrete call node: an indirect fast tail call of a void-returning
target with one argument. -/
def callW : CallNode :=
  ⟨.tVOID, false, 0, ∅, true, false, true, false, false, false, 1, false, false, false, 1, ∅⟩

/-- Concrete split argument node: three single-register field-list
entries filling two destination registers starting at register 5. -/
def splitW : SplitNode := ⟨2, 5, true, [1, 1, 1], false, 0⟩

/-- Modelled from the spec (for refinement comparison only, not from the
source): the spec's side condition "both addresses are simple enough
that vector paired transfers apply", read per the code comment as: both
the source and the destination address are local frame references. -/
def specVectorAddrsSimple (nd : BlkNode) : Bool :=
  blkIsSrcAddrLocal nd && blkIsDstAddrLocal nd

theorem countUses_append (l1 l2 : List Event) :
    countUses (l1 ++ l2) = countUses l1 + countUses l2 := by
  induction l1 with
  | nil => simp [countUses]
  | cons e l ih => simp [countUses, ih]; omega

theorem countInternalInt_append (l1 l2 : List Event) :
    countInternalInt (l1 ++ l2) = countInternalInt l1 + countInternalInt l2 := by
  induction l1 with
  | nil => simp [countInternalInt]
  | cons e l ih => simp [countInternalInt, ih]; omega

theorem countInternalFloat_append (l1 l2 : List Event) :
    countInternalFloat (l1 ++ l2) = countInternalFloat l1 + countInternalFloat l2 := by
  induction l1 with
  | nil => simp [countInternalFloat]
  | cons e l ih => simp [countInternalFloat, ih]; omega

theorem countUses_replicate (n : Nat) (e : Event) :
    countUses (List.replicate n e) = if e.isUse then n else 0 := by
  induction n with
  | zero => simp [countUses]
  | succ n ih => simp [List.replicate_succ, countUses, ih]; split <;> omega

theorem countInternalInt_replicate (n : Nat) (e : Event) :
    countInternalInt (List.replicate n e) = if e.isInternalInt then n else 0 := by
  induction n with
  | zero => simp [countInternalInt]
  | succ n ih => simp [List.replicate_succ, countInternalInt, ih]; split <;> omega

theorem countInternalFloat_replicate (n : Nat) (e : Event) :
    countInternalFloat (List.replicate n e) = if e.isInternalFloat then n else 0 := by
  induction n with
  | zero => simp [countInternalFloat]
  | succ n ih => simp [List.replicate_succ, countInternalFloat, ih]; split <;> omega

theorem splitInner_succ (b n rc cnt : Nat) (placed : RegSet) :
    splitInner b n (rc + 1) cnt placed =
      (Event.use 0 (slotMask b n cnt) ::
         (splitInner b n rc (cnt + 1)
            (if cnt < n then insert (b + cnt) placed else placed)).1,
       (splitInner b n rc (cnt + 1)
          (if cnt < n then insert (b + cnt) placed else placed)).2) := by
  by_cases h : cnt < n <;> simp [splitInner, slotMask, h]

theorem splitInner_cnt (b n : Nat) :
    ∀ (rc cnt : Nat) (placed : RegSet), (splitInner b n rc cnt placed).2.1 = cnt + rc := by
  intro rc
  induction rc with
  | zero => intro cnt placed; rfl
  | succ rc ih =>
      intro cnt placed
      rw [splitInner_succ]
      simp only [ih]
      omega

theorem splitInner_events (b n : Nat) :
    ∀ (rc cnt : Nat) (placed : RegSet),
      (splitInner b n rc cnt placed).1 =
        (List.range rc).map (fun j => Event.use 0 (slotMask b n (cnt + j))) := by
  intro rc
  induction rc with
  | zero => intro cnt placed; rfl
  | succ rc ih =>
      intro cnt placed
      rw [splitInner_succ, List.range_succ_eq_map, List.map_cons, List.map_map]
      simp only [Nat.add_zero]
      rw [ih]
      congr 1
      apply List.map_congr_left
      intro a _
      have hh : cnt + 1 + a = cnt + (a + 1) := by omega
      simp [Function.comp, hh]

theorem splitInner_placed (b n : Nat) :
    ∀ (rc cnt : Nat) (placed : RegSet) (r : Nat),
      r ∈ (splitInner b n rc cnt placed).2.2 ↔
        r ∈ placed ∨ ∃ j, j < rc ∧ cnt + j < n ∧ r = b + (cnt + j) := by
  intro rc
  induction rc with
  | zero =>
      intro cnt placed r
      simp [splitInner]
  | succ rc ih =>
      intro cnt placed r
      rw [splitInner_succ]
      simp only []
      rw [ih]
      by_cases h : cnt < n
      · simp only [h, if_true, Finset.mem_insert]
        constructor
        · rintro ((rfl | hp) | ⟨j, hj, hjn, rfl⟩)
          · exact Or.inr ⟨0, by omega, by omega, by omega⟩
          · exact Or.inl hp
          · exact Or.inr ⟨j + 1, by omega, by omega, by omega⟩
        · rintro (hp | ⟨j, hj, hjn, rfl⟩)
          · exact Or.inl (Or.inr hp)
          · cases j with
            | zero => exact Or.inl (Or.inl (by omega))
            | succ j => exact Or.inr ⟨j, by omega, by omega, by omega⟩
      · simp only [h, if_false]
        constructor
        · rintro (hp | ⟨j, hj, hjn, rfl⟩)
          · exact Or.inl hp
          · exact Or.inr ⟨j + 1, by omega, by omega, by omega⟩
        · rintro (hp | ⟨j, hj, hjn, rfl⟩)
          · exact Or.inl hp
          · cases j with
            | zero => omega
            | succ j => exact Or.inr ⟨j, by omega, by omega, by omega⟩

theorem splitOuter_cnt (b n : Nat) :
    ∀ (rcs : List Nat) (cnt : Nat) (placed : RegSet),
      (splitOuter b n rcs cnt placed).2.1 = cnt + rcs.sum := by
  intro rcs
  induction rcs with
  | nil => intro cnt placed; simp [splitOuter]
  | cons rc rest ih =>
      intro cnt placed
      simp only [splitOuter, List.sum_cons]
      rw [ih, splitInner_cnt]
      omega

theorem splitOuter_events (b n : Nat) :
    ∀ (rcs : List Nat) (cnt : Nat) (placed : RegSet),
      (splitOuter b n rcs cnt placed).1 =
        (List.range rcs.sum).map (fun j => Event.use 0 (slotMask b n (cnt + j))) := by
  intro rcs
  induction rcs with
  | nil => intro cnt placed; simp [splitOuter]
  | cons rc rest ih =>
      intro cnt placed
      simp only [splitOuter, List.sum_cons]
      rw [splitInner_events, splitInner_cnt, ih, List.range_add, List.map_append,
        List.map_map]
      congr 1
      apply List.map_congr_left
      intro a _
      have hh : cnt + rc + a = cnt + (rc + a) := by omega
      simp [Function.comp, hh]

theorem splitOuter_placed (b n : Nat) :
    ∀ (rcs : List Nat) (cnt : Nat) (placed : RegSet) (r : Nat),
      r ∈ (splitOuter b n rcs cnt placed).2.2 ↔
        r ∈ placed ∨ ∃ j, j < rcs.sum ∧ cnt + j < n ∧ r = b + (cnt + j) := by
  intro rcs
  induction rcs with
  | nil => intro cnt placed r; simp [splitOuter]
  | cons rc rest ih =>
      intro cnt placed r
      simp only [splitOuter, List.sum_cons]
      rw [ih, splitInner_cnt, splitInner_placed]
      constructor
      · rintro ((hp | ⟨j, hj, hjn, rfl⟩) | ⟨j, hj, hjn, rfl⟩)
        · exact Or.inl hp
        · exact Or.inr ⟨j, by omega, by omega, by omega⟩
        · exact Or.inr ⟨rc + j, by omega, by omega, by omega⟩
      · rintro (hp | ⟨j, hj, hjn, rfl⟩)
        · exact Or.inl (Or.inl hp)
        · by_cases hjrc : j < rc
          · exact Or.inl (Or.inr ⟨j, hjrc, by omega, by omega⟩)
          · exact Or.inr ⟨j - rc, by omega, by omega, by omega⟩

theorem countUses_ite (p : Prop) [Decidable p] (l1 l2 : List Event) :
    countUses (if p then l1 else l2) = if p then countUses l1 else countUses l2 := by
  split <;> rfl

theorem countInternalInt_ite (p : Prop) [Decidable p] (l1 l2 : List Event) :
    countInternalInt (if p then l1 else l2) =
      if p then countInternalInt l1 else countInternalInt l2 := by
  split <;> rfl

theorem countInternalFloat_ite (p : Prop) [Decidable p] (l1 l2 : List Event) :
    countInternalFloat (if p then l1 else l2) =
      if p then countInternalFloat l1 else countInternalFloat l2 := by
  split <;> rfl

theorem mem_ite_list {α : Type} (p : Prop) [Decidable p] (l1 l2 : List α) (x : α) :
    x ∈ (if p then l1 else l2) ↔ (p ∧ x ∈ l1) ∨ (¬p ∧ x ∈ l2) := by
  split <;> rename_i h <;> simp [h]

theorem countUses_map_use (g : Nat → RegSet) (l : List Nat) :
    countUses (l.map (fun j => Event.use 0 (g j))) = l.length := by
  induction l with
  | nil => rfl
  | cons a l ih => simp [countUses, Event.isUse, ih]; omega

/-- C2: after every execution of BuildCall — for direct, indirect, tail
and non-tail calls, on every path — the cross-call placement state is
empty: placedArgRegs holds no registers and numPlacedArgLocals is zero,
so no placement information survives from one call node to the next. -/
theorem buildCall_clears_cross_call_state (t : Target) (c : Comp) (nd : CallNode)
    (placedIn : RegSet) (numPlacedIn : Nat) :
    (BuildCall t c nd placedIn numPlacedIn).placedArgRegs = ∅ ∧
    (BuildCall t c nd placedIn numPlacedIn).numPlacedArgLocals = 0 :=
  ⟨rfl, rfl⟩

/-- C10: the marking that protects async continuation-context registers
across the call (MarkAsyncContinuationBusyForCall) is performed exactly
when the call node is async, the enclosing method is compiled as async,
and the call is not a fast tail call; in particular, for every fast tail
call this marking never occurs. -/
theorem buildCall_async_marking (t : Target) (c : Comp) (nd : CallNode)
    (placedIn : RegSet) (numPlacedIn : Nat) :
    (Event.asyncBusy ∈ (BuildCall t c nd placedIn numPlacedIn).trace ↔
      (nd.isAsync = true ∧ c.compIsAsync = true ∧ nd.isFastTailCall = false)) ∧
    (nd.isFastTailCall = true →
      Event.asyncBusy ∉ (BuildCall t c nd placedIn numPlacedIn).trace) := by
  cases ha : nd.isAsync <;> cases hb : c.compIsAsync <;> cases hc : nd.isFastTailCall <;>
    simp [BuildCall, mem_ite_list, ha, hb, hc, List.mem_replicate]

/-- C3: in BuildIndir, for a contained base+index+offset addressing
expression: with a non-null index and a nonzero offset exactly one
scratch integer register is reserved; with only one of the two present,
one is reserved exactly when the offset cannot be encoded in the
load/store immediate field for the access width, otherwise zero; with
neither index nor offset, zero; never more than one scratch register
from this rule.  On ARM64 for a non-SIMD12 node this rule accounts for
every internal integer register of BuildIndir. -/
theorem buildIndir_addrMode_internal_reg (t : Target) (nd : IndirNode)
    (hc : nd.addrContained = true) (hl : nd.addrIsLea = true) :
    (nd.leaHasIndex = true → nd.leaOffset ≠ 0 → indirAddrModeInternalCount nd = 1) ∧
    (nd.leaHasIndex = true → nd.leaOffset = 0 → indirAddrModeInternalCount nd = 0) ∧
    (nd.leaHasIndex = false →
      indirAddrModeInternalCount nd =
        (if emitIns_valid_imm_for_ldst_offset nd.leaOffset nd.accessSize then 0 else 1)) ∧
    (nd.leaHasIndex = false → nd.leaOffset = 0 → indirAddrModeInternalCount nd = 0) ∧
    indirAddrModeInternalCount nd ≤ 1 ∧
    (t.isArm64 = true → nd.nodeType ≠ VType.tSIMD12 →
      countInternalInt (BuildIndir t nd).2 = indirAddrModeInternalCount nd) := by
  have hvalid0 : ∀ sz : Nat, emitIns_valid_imm_for_ldst_offset 0 sz = true := by
    intro sz
    simp [emitIns_valid_imm_for_ldst_offset]
  refine ⟨?_, ?_, ?_, ?_, ?_, ?_⟩
  · intro hi ho
    simp [indirAddrModeInternalCount, hc, hl, hi, ho]
  · intro hi ho
    simp [indirAddrModeInternalCount, hc, hl, hi, ho, hvalid0]
  · intro hi
    simp only [indirAddrModeInternalCount, hc, hl, hi, if_true, Bool.false_and,
      Bool.false_eq_true, if_false]
    split <;> rename_i hv <;> simp_all
  · intro hi ho
    simp [indirAddrModeInternalCount, hc, hl, hi, ho, hvalid0]
  · simp only [indirAddrModeInternalCount, hc, hl, if_true]
    split
    · omega
    · split <;> omega
  · intro ha hs
    simp [BuildIndir, ha, hs, countInternalInt_append, countInternalInt_replicate,
      countInternalInt_ite, countInternalInt, Event.isInternalInt, Event.isUse]

/-- Witness for buildIndir_addrMode_internal_reg at a concrete contained
LEA with index present and offset 4. -/
theorem buildIndir_addrMode_internal_reg_witness :
    indirAddrModeInternalCount indirW = 1 ∧
    countInternalInt (BuildIndir tgt64 indirW).2 = indirAddrModeInternalCount indirW :=
  ⟨(buildIndir_addrMode_internal_reg tgt64 indirW rfl rfl).1 rfl (by decide),
   (buildIndir_addrMode_internal_reg tgt64 indirW rfl rfl).2.2.2.2.2 rfl (by decide)⟩

theorem blkTrace_internals (t : Target) (c : Comp) (nd : BlkNode) (sev : List Event)
    (d s : RegSet) (h : blkStrategyEvents t c nd = some (sev, d, s)) :
    countInternalFloat (blkTrace t c nd) = countInternalFloat sev ∧
    countInternalInt (blkTrace t c nd) = countInternalInt sev := by
  simp only [blkTrace, BuildBlockStore, h, Option.map_some, Option.getD_some]
  constructor <;>
    simp [countInternalFloat_append, countInternalInt_append, countInternalFloat_ite,
      countInternalInt_ite, countInternalFloat_replicate, countInternalInt_replicate,
      countInternalFloat, countInternalInt, Event.isInternalFloat, Event.isInternalInt,
      apply_ite countInternalFloat, apply_ite countInternalInt]

/-- C4: in BuildBlockStore with the overlap-safe move (memmove)
strategy, given size > 0: if size is at least one vector-register width
(16 bytes), exactly the round-up of size/16 scratch vector registers and
no scratch integer registers are reserved; otherwise one scratch integer
register if size is a power of two, else exactly two. -/
theorem blockStore_memmove_internal_regs (t : Target) (c : Comp) (nd : BlkNode)
    (hk : nd.kind = BlkOpKind.unrollMemmove) (hi : nd.isInitBlkOp = false)
    (ha : t.isArm64 = true) (hs : 0 < nd.size) :
    (16 ≤ nd.size →
      countInternalFloat (blkTrace t c nd) = (nd.size + 15) / 16 ∧
      countInternalInt (blkTrace t c nd) = 0) ∧
    (nd.size < 16 →
      countInternalFloat (blkTrace t c nd) = 0 ∧
      countInternalInt (blkTrace t c nd) = (if isPow2 nd.size then 1 else 2)) := by
  have hstrat : blkStrategyEvents t c nd =
      some ((if 16 ≤ nd.size then
               List.replicate (nd.size / 16 + (if nd.size % 16 != 0 then 1 else 0))
                 (Event.internalFloat internalFloatRegCandidates)
             else if isPow2 nd.size then [Event.internalInt (availableIntRegs t)]
             else [Event.internalInt (availableIntRegs t),
                   Event.internalInt (availableIntRegs t)]), ∅, ∅) := by
    simp [blkStrategyEvents, hi, hk, ha, FP_REGSIZE_BYTES, ge_iff_le]
  obtain ⟨hcf, hci⟩ := blkTrace_internals t c nd _ _ _ hstrat
  constructor
  · intro h16
    rw [hcf, hci]
    constructor
    · rw [if_pos h16, countInternalFloat_replicate]
      simp only [Event.isInternalFloat, if_true]
      split <;> rename_i hm <;> simp at hm <;> omega
    · rw [if_pos h16, countInternalInt_replicate]
      simp [Event.isInternalInt]
  · intro h16
    have h16' : ¬16 ≤ nd.size := by omega
    rw [hcf, hci]
    constructor
    · rw [if_neg h16']
      split <;> simp [countInternalFloat, Event.isInternalFloat]
    · rw [if_neg h16']
      split <;> rename_i hp <;> simp [hp, countInternalInt, Event.isInternalInt]

/-- Witness for blockStore_memmove_internal_regs at a 16-byte memmove:
one vector register, no integer register. -/
theorem blockStore_memmove_internal_regs_witness :
    countInternalFloat (blkTrace tgt64 comp0 blkW4) = 1 ∧
    countInternalInt (blkTrace tgt64 comp0 blkW4) = 0 :=
  (blockStore_memmove_internal_regs tgt64 comp0 blkW4 rfl rfl rfl (by decide)).1 (by decide)

/-- C5: in BuildBlockStore with the write-barrier object-copy
(CpObjUnroll) strategy, the destination-address use carries exactly the
write-barrier-destination singleton; an emitted source-address use
(non-local source) carries exactly the write-barrier-source singleton;
and every scratch integer register of this strategy is drawn from a set
excluding both write-barrier registers. -/
theorem blockStore_cpObj_writeBarrier_pinning (t : Target) (c : Comp) (nd : BlkNode)
    (hk : nd.kind = BlkOpKind.cpObjUnroll) (hi : nd.isInitBlkOp = false)
    (hd : nd.dstContained = false) :
    (Event.use 1 (RBM_WRITE_BARRIER_DST_BYREF t) ∈ blkTrace t c nd ∧
     ∀ m, Event.use 1 m ∈ blkTrace t c nd → m = RBM_WRITE_BARRIER_DST_BYREF t) ∧
    (nd.srcIsInd = true → nd.saofContained = false →
      Event.use 2 (RBM_WRITE_BARRIER_SRC_BYREF t) ∈ blkTrace t c nd ∧
      ∀ m, Event.use 2 m ∈ blkTrace t c nd → m = RBM_WRITE_BARRIER_SRC_BYREF t) ∧
    (∀ m, Event.internalInt m ∈ blkTrace t c nd →
      m = allIntRegs t \ (RBM_WRITE_BARRIER_DST_BYREF t ∪ RBM_WRITE_BARRIER_SRC_BYREF t)) ∧
    (∀ m, Event.internalInt m ∈ blkTrace t c nd →
      m ∩ (RBM_WRITE_BARRIER_DST_BYREF t ∪ RBM_WRITE_BARRIER_SRC_BYREF t) = ∅) := by
  have hdisj : ∀ m : RegSet,
      m = allIntRegs t \ (RBM_WRITE_BARRIER_DST_BYREF t ∪ RBM_WRITE_BARRIER_SRC_BYREF t) →
      m ∩ (RBM_WRITE_BARRIER_DST_BYREF t ∪ RBM_WRITE_BARRIER_SRC_BYREF t) = ∅ := by
    intro m hm
    subst hm
    exact Finset.sdiff_inter_self _ _
  refine ⟨⟨?_, ?_⟩, ?_, ?_, ?_⟩
  · simp [blkTrace, BuildBlockStore, blkStrategyEvents, hk, hi, hd, blkSaofPresent,
      mem_ite_list]
  · intro m hm
    simp [blkTrace, BuildBlockStore, blkStrategyEvents, hk, hi, hd, blkSaofPresent,
      mem_ite_list, List.mem_replicate] at hm
    tauto
  · intro hsrc hsc
    constructor
    · simp [blkTrace, BuildBlockStore, blkStrategyEvents, hk, hi, hd, hsrc, hsc,
        blkSaofPresent, mem_ite_list]
    · intro m hm
      simp [blkTrace, BuildBlockStore, blkStrategyEvents, hk, hi, hd, hsrc, hsc,
        blkSaofPresent, mem_ite_list, List.mem_replicate] at hm
      tauto
  · intro m hm
    simp [blkTrace, BuildBlockStore, blkStrategyEvents, hk, hi, hd, blkSaofPresent,
      mem_ite_list, List.mem_replicate] at hm
    tauto
  · intro m hm
    apply hdisj
    simp [blkTrace, BuildBlockStore, blkStrategyEvents, hk, hi, hd, blkSaofPresent,
      mem_ite_list, List.mem_replicate] at hm
    tauto

/-- Witness for blockStore_cpObj_writeBarrier_pinning at a concrete
16-byte object copy from a non-local source. -/
theorem blockStore_cpObj_writeBarrier_pinning_witness :
    Event.use 1 (RBM_WRITE_BARRIER_DST_BYREF tgt64) ∈ blkTrace tgt64 comp0 blkW5 ∧
    Event.use 2 (RBM_WRITE_BARRIER_SRC_BYREF tgt64) ∈ blkTrace tgt64 comp0 blkW5 :=
  ⟨(blockStore_cpObj_writeBarrier_pinning tgt64 comp0 blkW5 rfl rfl rfl).1.1,
   ((blockStore_cpObj_writeBarrier_pinning tgt64 comp0 blkW5 rfl rfl rfl).2.1 rfl rfl).1⟩

/-- C9 counterexample: for a 32-byte general unrolled copy whose source
and destination addresses are both non-local and non-contained, the code
still reserves two scratch vector registers, so the reservation is not
conditional on the spec's "both addresses are simple enough that vector
paired transfers apply". -/
theorem blockStore_unroll_vector_counterexample :
    ¬ (countInternalFloat (blkTrace tgt64 comp0 blkW9) = 2 ↔
        (2 * FP_REGSIZE_BYTES tgt64 ≤ blkW9.size ∧ specVectorAddrsSimple blkW9 = true)) := by
  decide

/-- C9 (amended): in BuildBlockStore with the general unrolled copy
strategy, one scratch integer register is always reserved; on ARM64 a
second exactly when size is at least two machine words, one additional
exactly when both addresses may need run-time computation into a
register, and two scratch vector registers exactly when size is at least
two vector-register widths — the vector reservation is speculative and
does not depend on the address shapes. -/
theorem blockStore_unroll_internal_regs (t : Target) (c : Comp) (nd : BlkNode)
    (hk : nd.kind = BlkOpKind.unroll) (hi : nd.isInitBlkOp = false) :
    1 ≤ countInternalInt (blkTrace t c nd) ∧
    (t.isArm64 = true →
      countInternalInt (blkTrace t c nd) =
        1 + (if 2 * REGSIZE_BYTES t ≤ nd.size then 1 else 0) +
          (if blkSrcAddrMayNeedReg nd = true ∧ blkDstAddrMayNeedReg nd = true then 1 else 0) ∧
      countInternalFloat (blkTrace t c nd) =
        (if 2 * FP_REGSIZE_BYTES t ≤ nd.size then 2 else 0)) := by
  have hstrat : blkStrategyEvents t c nd =
      some (Event.internalInt ∅ ::
              (if t.isArm64 = true then
                 (if 2 * REGSIZE_BYTES t ≤ nd.size then [Event.internalInt ∅] else []) ++
                 (if 2 * FP_REGSIZE_BYTES t ≤ nd.size then
                    [Event.internalFloat internalFloatRegCandidates,
                     Event.internalFloat internalFloatRegCandidates] else []) ++
                 (if blkSrcAddrMayNeedReg nd = true ∧ blkDstAddrMayNeedReg nd = true then
                    [Event.internalInt ∅] else [])
               else []), ∅, ∅) := by
    simp [blkStrategyEvents, hi, hk, ge_iff_le]
  obtain ⟨hcf, hci⟩ := blkTrace_internals t c nd _ _ _ hstrat
  constructor
  · rw [hci]
    simp only [countInternalInt, Event.isInternalInt, if_true]
    omega
  · intro ha
    rw [hci, hcf]
    by_cases h1 : 2 * REGSIZE_BYTES t ≤ nd.size <;>
    by_cases h2 : 2 * FP_REGSIZE_BYTES t ≤ nd.size <;>
    by_cases h3 : blkSrcAddrMayNeedReg nd = true ∧ blkDstAddrMayNeedReg nd = true <;>
      simp [ha, h1, h2, h3, countInternalInt_append, countInternalFloat_append,
        countInternalInt, countInternalFloat, Event.isInternalInt, Event.isInternalFloat]

/-- Witness for blockStore_unroll_internal_regs at a concrete 32-byte
unrolled copy on ARM64. -/
theorem blockStore_unroll_internal_regs_witness :
    countInternalInt (blkTrace tgt64 comp0 blkW9) =
      1 + (if 2 * REGSIZE_BYTES tgt64 ≤ blkW9.size then 1 else 0) +
        (if blkSrcAddrMayNeedReg blkW9 = true ∧ blkDstAddrMayNeedReg blkW9 = true then 1
         else 0) ∧
    countInternalFloat (blkTrace tgt64 comp0 blkW9) =
      (if 2 * FP_REGSIZE_BYTES tgt64 ≤ blkW9.size then 2 else 0) :=
  (blockStore_unroll_internal_regs tgt64 comp0 blkW9 rfl rfl).2 rfl

/-- C6: in BuildCall with a present call-target control expression and a
fast tail call (outside the TLS special case), the control expression's
candidate set is exactly the integer caller-trashed registers minus the
link register, additionally minus both GS-cookie temporaries when the
cookie scheme is active; the restriction is never empty. -/
theorem buildCall_fastTail_ctrl_candidates (t : Target) (c : Comp) (nd : CallNode)
    (p : RegSet) (k : Nat)
    (hp : callCtrlPresent nd = true) (hf : nd.isFastTailCall = true)
    (ht : callTlsCond t c nd = false) :
    (BuildCall t c nd p k).ctrlExprCandidates = fastTailCtrlCandidates t c ∧
    Event.use 1 (fastTailCtrlCandidates t c) ∈ (BuildCall t c nd p k).trace ∧
    fastTailCtrlCandidates t c =
      ((allIntRegs t ∩ RBM_INT_CALLEE_TRASH t) \ SRBM_LR t) \
        (if c.needsGSSecurityCookie = true then gsCookieTmpRegs t else ∅) ∧
    fastTailCtrlCandidates t c ≠ ∅ := by
  refine ⟨?_, ?_, ?_, ?_⟩
  · simp [BuildCall, hp, hf, ht]
  · simp [BuildCall, hp, hf, ht, mem_ite_list]
  · by_cases hgs : c.needsGSSecurityCookie = true <;>
      simp [fastTailCtrlCandidates, hgs]
  · rcases t with ⟨tb⟩
    cases tb <;> by_cases hgs : c.needsGSSecurityCookie = true <;>
      simp only [fastTailCtrlCandidates, hgs, if_true, if_false] <;> decide

/-- Witness for buildCall_fastTail_ctrl_candidates: an indirect fast
tail call on ARM64 with the GS cookie scheme active. -/
theorem buildCall_fastTail_ctrl_candidates_witness :
    (BuildCall tgt64 compGS callW ∅ 0).ctrlExprCandidates =
      fastTailCtrlCandidates tgt64 compGS ∧
    fastTailCtrlCandidates tgt64 compGS ≠ ∅ :=
  ⟨(buildCall_fastTail_ctrl_candidates tgt64 compGS callW ∅ 0 rfl rfl rfl).1,
   (buildCall_fastTail_ctrl_candidates tgt64 compGS callW ∅ 0 rfl rfl rfl).2.2.2⟩

/-- C7: in BuildCall, the destination count is the return descriptor's
register count for a multi-register return, 1 for any other non-void
return, 0 for void; the kill set is emitted combined with the
destination definition(s) when the destination count is positive, and
alone when it is zero. -/
theorem buildCall_dstCount_kills (t : Target) (c : Comp) (nd : CallNode)
    (p : RegSet) (k : Nat) :
    (BuildCall t c nd p k).dstCount =
      (if nd.retType = VType.tVOID then 0
       else if nd.hasMultiRegRetVal then nd.retRegCount else 1) ∧
    ((BuildCall t c nd p k).dstCount = 0 →
      Event.kills nd.killMask ∈ (BuildCall t c nd p k).trace ∧
      (∀ m km, Event.defWithKills m km ∉ (BuildCall t c nd p k).trace) ∧
      (∀ n2 m km, Event.defsWithKills n2 m km ∉ (BuildCall t c nd p k).trace)) ∧
    (0 < (BuildCall t c nd p k).dstCount →
      (∀ m, Event.kills m ∉ (BuildCall t c nd p k).trace) ∧
      (nd.hasMultiRegRetVal = true →
        Event.defsWithKills (BuildCall t c nd p k).dstCount nd.multiRetMask nd.killMask ∈
          (BuildCall t c nd p k).trace) ∧
      (nd.hasMultiRegRetVal = false →
        Event.defWithKills (callSingleDstCandidates t nd) nd.killMask ∈
          (BuildCall t c nd p k).trace)) := by
  refine ⟨?_, ?_, ?_⟩
  · by_cases hv : nd.retType = VType.tVOID <;> simp [BuildCall, hv]
  · intro h0
    by_cases hv : nd.retType = VType.tVOID
    · refine ⟨?_, ?_, ?_⟩ <;>
        simp [BuildCall, hv, mem_ite_list, List.mem_replicate]
    · by_cases hmr : nd.hasMultiRegRetVal
      · have hr : nd.retRegCount = 0 := by
          simpa [BuildCall, hv, hmr] using h0
        refine ⟨?_, ?_, ?_⟩ <;>
          simp [BuildCall, hv, hmr, hr, mem_ite_list, List.mem_replicate]
      · simp [BuildCall, hv, hmr] at h0
  · intro h0
    by_cases hv : nd.retType = VType.tVOID
    · simp [BuildCall, hv] at h0
    · by_cases hmr : nd.hasMultiRegRetVal
      · have hr : 0 < nd.retRegCount := by
          simpa [BuildCall, hv, hmr] using h0
        refine ⟨?_, ?_, ?_⟩ <;>
          simp [BuildCall, hv, hmr, hr, mem_ite_list, List.mem_replicate, Nat.pos_iff_ne_zero]
      · refine ⟨?_, ?_, ?_⟩ <;>
          simp [BuildCall, hv, hmr, mem_ite_list, List.mem_replicate]

/-- Witness for buildCall_dstCount_kills at a concrete void indirect
fast tail call: destination count 0 and the kill set emitted alone. -/
theorem buildCall_dstCount_kills_witness :
    (BuildCall tgt64 comp0 callW ∅ 0).dstCount = 0 ∧
    Event.kills callW.killMask ∈ (BuildCall tgt64 comp0 callW ∅ 0).trace :=
  ⟨(buildCall_dstCount_kills tgt64 comp0 callW ∅ 0).1,
   ((buildCall_dstCount_kills tgt64 comp0 callW ∅ 0).2.1 rfl).1⟩

/-- C8: in BuildPutArgSplit with a field-list source, each produced
sub-register slot of ordinal below the destination register count is
emitted as a use bound to the single destination register (base register
plus ordinal) and that register is added to the cross-call placement
state; every slot at or beyond the destination count is emitted with no
candidate restriction and adds nothing to the placement state. -/
theorem buildPutArgSplit_fieldList_slots (t : Target) (nd : SplitNode) (p : RegSet)
    (hf : nd.srcIsFieldList = true) :
    (∀ kk, kk < nd.fieldRegCounts.sum →
      ((BuildPutArgSplit t nd p).trace)[kk]? =
        some (Event.use 0 (slotMask nd.baseReg nd.numRegs kk))) ∧
    (∀ r, r ∈ (BuildPutArgSplit t nd p).placedArgRegs ↔
      (r ∈ p ∨ ∃ j, j < nd.fieldRegCounts.sum ∧ j < nd.numRegs ∧ r = nd.baseReg + j)) ∧
    (BuildPutArgSplit t nd p).srcCount = nd.fieldRegCounts.sum := by
  have hev := splitOuter_events nd.baseReg nd.numRegs nd.fieldRegCounts 0 p
  have hcnt := splitOuter_cnt nd.baseReg nd.numRegs nd.fieldRegCounts 0 p
  have hpl := splitOuter_placed nd.baseReg nd.numRegs nd.fieldRegCounts 0 p
  refine ⟨?_, ?_, ?_⟩
  · intro kk hkk
    simp only [BuildPutArgSplit, hf, if_true]
    have hlen : kk <
        (splitOuter nd.baseReg nd.numRegs nd.fieldRegCounts 0 p).1.length := by
      rw [hev]
      simpa using hkk
    rw [List.getElem?_append, if_pos hlen, hev]
    simp [hkk, slotMask]
  · intro r
    simp only [BuildPutArgSplit, hf, if_true]
    rw [hpl]
    simp only [Nat.zero_add]
  · simp only [BuildPutArgSplit, hf, if_true]
    rw [hcnt]
    omega

/-- Witness for buildPutArgSplit_fieldList_slots at a three-slot field
list with two destination registers starting at register 5. -/
theorem buildPutArgSplit_fieldList_slots_witness :
    ((BuildPutArgSplit tgt64 splitW ∅).trace)[2]? =
      some (Event.use 0 (slotMask splitW.baseReg splitW.numRegs 2)) ∧
    (BuildPutArgSplit tgt64 splitW ∅).srcCount = splitW.fieldRegCounts.sum :=
  ⟨(buildPutArgSplit_fieldList_slots tgt64 splitW ∅ rfl).1 2 (by decide),
   (buildPutArgSplit_fieldList_slots tgt64 splitW ∅ rfl).2.2⟩

theorem countUses_of_all_uses (l : List Event) (h : ∀ e ∈ l, e.isUse = true) :
    countUses l = l.length := by
  induction l with
  | nil => rfl
  | cons e rest ih =>
      simp only [countUses, h e (List.mem_cons_self e rest), if_true, List.length_cons]
      rw [ih fun x hx => h x (List.mem_cons_of_mem e hx)]
      omega

theorem buildIndir_srcCount (t : Target) (nd : IndirNode) :
    (BuildIndir t nd).1 = countUses (BuildIndir t nd).2 := by
  cases h : unalignedCheckType nd <;>
    simp [BuildIndir, h, countUses_append, countUses_replicate, countUses_ite, countUses,
      Event.isUse]

theorem buildCall_srcCount (t : Target) (c : Comp) (nd : CallNode) (p : RegSet) (k : Nat) :
    (BuildCall t c nd p k).srcCount = countUses (BuildCall t c nd p k).trace := by
  simp [BuildCall, countUses_append, countUses_replicate, countUses_ite, countUses,
    Event.isUse]

theorem countUses_stkFieldEvents (l : List VType) : countUses (stkFieldEvents l) = l.length := by
  induction l with
  | nil => rfl
  | cons ty rest ih =>
      by_cases h : ty = VType.tSIMD12 <;>
        simp [stkFieldEvents, countUses, countUses_append, h, ih, Event.isUse] <;> omega

theorem buildPutArgStk_srcCount (t : Target) (c : Comp) (nd : StkNode) :
    (BuildPutArgStk t c nd).1 = countUses (BuildPutArgStk t c nd).2 := by
  by_cases h1 : nd.srcType = VType.tSTRUCT
  · by_cases h2 : nd.srcIsFieldList = true
    · simp [BuildPutArgStk, h1, h2, countUses_append, countUses_stkFieldEvents, countUses,
        Event.isUse]
    · by_cases h3 : nd.srcIsBlk = true <;>
        simp [BuildPutArgStk, h1, h2, h3, countUses_append, countUses_replicate,
          countUses_ite, countUses, Event.isUse]
  · simp [BuildPutArgStk, h1, countUses_append, countUses_replicate, countUses_ite,
      countUses, Event.isUse]

theorem buildPutArgSplit_srcCount (t : Target) (nd : SplitNode) (p : RegSet) :
    (BuildPutArgSplit t nd p).srcCount = countUses (BuildPutArgSplit t nd p).trace := by
  by_cases hf : nd.srcIsFieldList = true
  · simp only [BuildPutArgSplit, hf, if_true]
    rw [splitOuter_events, splitOuter_cnt, countUses_append]
    rw [countUses_of_all_uses _ (by intro e he; simp at he; obtain ⟨j, hj, rfl⟩ := he; rfl)]
    simp [countUses, Event.isUse]
  · by_cases hb : nd.srcIsBlk = true <;>
      simp [BuildPutArgSplit, hf, hb, countUses_append, countUses_replicate, countUses_ite,
        countUses, Event.isUse]

theorem blkStrategy_no_uses (t : Target) (c : Comp) (nd : BlkNode) :
    countUses (((blkStrategyEvents t c nd).map Prod.fst).getD []) = 0 := by
  by_cases hi : nd.isInitBlkOp = true <;> cases hk : nd.kind <;>
    by_cases ha : t.isArm64 = true <;>
    simp [blkStrategyEvents, hi, hk, ha, countUses_append, countUses_ite,
      countUses_replicate, countUses, Event.isUse]

theorem blockStore_srcCount (t : Target) (c : Comp) (nd : BlkNode) :
    blkUseCount t c nd = countUses (blkTrace t c nd) := by
  cases hs : blkStrategyEvents t c nd with
  | none => simp [blkUseCount, blkTrace, BuildBlockStore, hs, countUses]
  | some x =>
      obtain ⟨sev, d, s⟩ := x
      have hsev : countUses sev = 0 := by
        have := blkStrategy_no_uses t c nd
        rw [hs] at this
        simpa using this
      simp only [blkUseCount, blkTrace, BuildBlockStore, hs, Option.map_some,
        Option.getD_some]
      simp [countUses_append, hsev, countUses_ite, countUses_replicate, countUses,
        Event.isUse]

theorem buildCast_srcCount (t : Target) (nd : CastNode) :
    (BuildCast t nd).1 = countUses (BuildCast t nd).2 := by
  simp [BuildCast, countUses_append, countUses_replicate, countUses_ite, countUses,
    Event.isUse]

theorem buildSelect_srcCount (nd : SelectNode) :
    (BuildSelect nd).1 = countUses (BuildSelect nd).2 := by
  simp [BuildSelect, countUses_append, countUses_replicate, countUses_ite, countUses,
    Event.isUse]
  omega

/-- C1: for every node category handled by this file (indirection, call,
stack argument, split argument, block store, cast, select), the value
returned by the builder equals the number of operand uses it emitted;
internal/scratch register reservations are never counted, and no emitted
operand use is left uncounted. -/
theorem builders_srcCount_matches_uses :
    (∀ (t : Target) (nd : IndirNode),
      (BuildIndir t nd).1 = countUses (BuildIndir t nd).2) ∧
    (∀ (t : Target) (c : Comp) (nd : CallNode) (p : RegSet) (k : Nat),
      (BuildCall t c nd p k).srcCount = countUses (BuildCall t c nd p k).trace) ∧
    (∀ (t : Target) (c : Comp) (nd : StkNode),
      (BuildPutArgStk t c nd).1 = countUses (BuildPutArgStk t c nd).2) ∧
    (∀ (t : Target) (nd : SplitNode) (p : RegSet),
      (BuildPutArgSplit t nd p).srcCount = countUses (BuildPutArgSplit t nd p).trace) ∧
    (∀ (t : Target) (c : Comp) (nd : BlkNode),
      blkUseCount t c nd = countUses (blkTrace t c nd)) ∧
    (∀ (t : Target) (nd : CastNode),
      (BuildCast t nd).1 = countUses (BuildCast t nd).2) ∧
    (∀ (nd : SelectNode), (BuildSelect nd).1 = countUses (BuildSelect nd).2) :=
  ⟨buildIndir_srcCount, buildCall_srcCount, buildPutArgStk_srcCount,
   buildPutArgSplit_srcCount, blockStore_srcCount, buildCast_srcCount,
   buildSelect_srcCount⟩

/-- Witness for buildCall_async_marking at a concrete fast tail call:
the async busy marking is not performed. -/
theorem buildCall_async_marking_witness :
    Event.asyncBusy ∉ (BuildCall tgt64 comp0 callW ∅ 0).trace :=
  (buildCall_async_marking tgt64 comp0 callW ∅ 0).2 rfl
